import Mathlib

/-!
# Verification of the hypothesis excerpt

Shallow embedding of `src/hypothesis/searchstrategy/numbers.py` and
`src/hypothesis/core.py`, with theorems checking the natural-language
specification against the code.

Python floats are represented by their IEEE-754 binary64 bit patterns
(a natural number below `2 ^ 64`); byte strings by lists of naturals below
256; random streams by the list of successive values the stream yields.
Python exceptions become an explicit `PyError` sum type and fallible code
returns `Except PyError`.
-/

namespace Hypothesis

/-- The Python exceptions raised by the embedded code.  `userError` stands
for an arbitrary exception raised by the user test body. -/
inductive PyError where
  | typeError (msg : String)
  | valueError (msg : String)
  | invalidArgument (msg : String)
  | unsatisfiedAssumption
  | stopTest
  | failedHealthCheck (msg : String)
  | timeoutError (msg : String)
  | unsatisfiable (msg : String)
  | flaky (msg : String)
  | deprecationWarning
  | userError (msg : String)
  deriving DecidableEq, Repr

/-- True exactly on `Except.error (PyError.invalidArgument _)`. -/
def raisesInvalidArgument {α : Type} : Except PyError α → Bool
  | .error (.invalidArgument _) => true
  | _ => false

/-- True exactly on `Except.error (PyError.valueError _)`. -/
def raisesValueError {α : Type} : Except PyError α → Bool
  | .error (.valueError _) => true
  | _ => false

/-! ## IEEE-754 binary64 bit patterns

`struct.pack(b'!d', f)` / `struct.unpack(b'!d', bs)` convert between a
double and its 8 big-endian bytes.  We work with the 64-bit pattern
directly: `expField` and `fracField` select the exponent and fraction
fields, and `math.isinf` / `math.isnan` test them. -/

/-- Exponent field (bits 52..62) of a binary64 pattern. -/
def expField (w : Nat) : Nat := w / 2 ^ 52 % 2 ^ 11

/-- Fraction field (bits 0..51) of a binary64 pattern. -/
def fracField (w : Nat) : Nat := w % 2 ^ 52

/-- `math.isinf` on a binary64 bit pattern. -/
def isinf (w : Nat) : Bool := decide (expField w = 2047) && decide (fracField w = 0)

/-- `math.isnan` on a binary64 bit pattern. -/
def isnan (w : Nat) : Bool := decide (expField w = 2047) && decide (fracField w ≠ 0)

/-- Python float negation `-x` on a binary64 bit pattern: flip the sign bit. -/
def fneg (w : Nat) : Nat := if w < 2 ^ 63 then w + 2 ^ 63 else w - 2 ^ 63

/-- `struct.pack(b'!d', f)`: the 8 big-endian bytes of a binary64 pattern. -/
def pack_double (w : Nat) : List Nat :=
  (List.range 8).map fun k => w / 2 ^ (8 * (7 - k)) % 256

/-- `struct.unpack(b'!d', bs)[0]`: reassemble the big-endian bytes into the
binary64 pattern.  Byte values are reduced mod 256 as bytes are. -/
def unpack_double (bs : List Nat) : Nat := bs.foldl (fun a b => a * 256 + b % 256) 0

/-! ## `numbers.py`: the NASTY_FLOATS catalog -/

/-- The 16 literal doubles of `NASTY_FLOATS` before mirroring, as binary64
bit patterns.  In source order:
`0.0`, `0.5`, `1.0 / 3`, `10e6`, `10e-6`, `1.175494351e-38`,
`2.2250738585072014e-308`, `1.7976931348623157e+308`, `3.402823466e+38`,
`9007199254740992`, `1 - 10e-6`, `2 + 10e-6`, `1.192092896e-07`,
`2.2204460492503131e-016`, `float('inf')`, `float('nan')`. -/
def NASTY_FLOATS_BASE : List Nat :=
  [0x0000000000000000,
   0x3fe0000000000000,
   0x3fd5555555555555,
   0x416312d000000000,
   0x3ee4f8b588e368f1,
   0x38100000000a639b,
   0x0010000000000000,
   0x7fefffffffffffff,
   0x47efffffdff07036,
   0x4340000000000000,
   0x3fefffeb074a771d,
   0x400000053e2d6239,
   0x3e800000001c5f68,
   0x3cb0000000000000,
   0x7ff0000000000000,
   0x7ff8000000000000]

/-- `NASTY_FLOATS.extend([-x for x in NASTY_FLOATS])`: the catalog mirrored
with negations, 32 values in all. -/
def NASTY_FLOATS : List Nat := NASTY_FLOATS_BASE ++ NASTY_FLOATS_BASE.map fneg

/-! ## `numbers.py`: FloatStrategy constructors (claim C10)

`FloatStrategy.__init__(self, allow_infinity, allow_nan)` takes two
required positional arguments (the `isinstance` assertions hold trivially
here because the model passes `Bool`s).  Python raises `TypeError` when a
call supplies the wrong number of positional arguments, so the model
receives the argument tuple as a list. -/

/-- `FloatStrategy.__init__`: requires exactly the two positional arguments
`allow_infinity` and `allow_nan`. -/
def FloatStrategy.init : List Bool → Except PyError (Bool × Bool)
  | [allow_infinity, allow_nan] => .ok (allow_infinity, allow_nan)
  | _ => .error (.typeError "FloatStrategy.__init__ missing required positional arguments allow_infinity and allow_nan")

/-- `WrapperFloatStrategy.__init__(self, sub_strategy)`: calls
`super(WrapperFloatStrategy, self).__init__()` with no arguments before
storing `sub_strategy`. -/
def WrapperFloatStrategy.init (Sub : Type) (sub_strategy : Sub) :
    Except PyError ((Bool × Bool) × Sub) := do
  let flags ← FloatStrategy.init []
  pure (flags, sub_strategy)

/-- `FullRangeFloats.__init__(self, allow_nan=True, allow_infinity=True)`:
calls `super(FullRangeFloats, self).__init__()` with no arguments before
assigning the two flags. -/
def FullRangeFloats.init (allow_nan allow_infinity : Bool) :
    Except PyError (Bool × Bool) := do
  let _ ← FloatStrategy.init []
  pure (allow_nan, allow_infinity)

/-- `FixedBoundedFloatStrategy(lower_bound, upper_bound)`: stores the two
bounds (its `__init__` takes them both, so construction succeeds). -/
structure FixedBoundedFloatStrategy where
  lower_bound : ℚ
  upper_bound : ℚ
  deriving DecidableEq, Repr

/-- `BoundedFloatStrategy.__init__(self)`: calls
`super(BoundedFloatStrategy, self).__init__()` with no arguments before
assigning `inner_strategy = FixedBoundedFloatStrategy(0, 1)`. -/
def BoundedFloatStrategy.init :
    Except PyError ((Bool × Bool) × FixedBoundedFloatStrategy) := do
  let flags ← FloatStrategy.init []
  pure (flags, FixedBoundedFloatStrategy.mk 0 1)

/-! ## `numbers.py`: WrapperFloatStrategy.do_draw (claim C1) -/

/-- `WrapperFloatStrategy.permitted(self, f)`. -/
def permitted (allow_infinity allow_nan : Bool) (f : Nat) : Bool :=
  if !allow_infinity && isinf f then false
  else if !allow_nan && isnan f then false
  else true

/-- `random.randint(lo, hi)` driven by the next stream value `v`: a uniform
reduction of `v` into the inclusive range. -/
def randint (lo hi v : Nat) : Nat := lo + v % (hi - lo + 1)

/-- The uniform branch `bytes(random.randint(0, 255) for _ in range(8))`,
driven by the next 8 stream values. -/
def uniformBytes (vs : List Nat) : List Nat :=
  (List.range 8).map fun k => vs.getD k 0 % 256

/-- The local `draw_float_bytes(random, n)` distribution function of
`WrapperFloatStrategy.do_draw`: repeatedly draw `i = random.randint(1, 10)`;
when `i <= 4` pick `f = random.choice(NASTY_FLOATS)` and return
`struct.pack(b'!d', f)` if `self.permitted(f)` (else loop); when `i > 4`
return 8 uniformly random bytes with no filter.  The random stream is the
list of successive values; the `while True` loop carries explicit fuel and
yields `none` when the fuel runs out. -/
def draw_float_bytes (allow_infinity allow_nan : Bool) :
    Nat → List Nat → Option (List Nat)
  | 0, _ => none
  | fuel + 1, vs =>
    let i := randint 1 10 (vs.headD 0)
    let vs1 := vs.tail
    if i ≤ 4 then
      let f := NASTY_FLOATS.getD (vs1.headD 0 % NASTY_FLOATS.length) 0
      if permitted allow_infinity allow_nan f then some (pack_double f)
      else draw_float_bytes allow_infinity allow_nan fuel vs1.tail
    else some (uniformBytes vs1)

/-- `WrapperFloatStrategy.do_draw(self, data)` on a byte source that
replays a stored buffer: per the ByteSource contract (spec section 6 and
the replay protocol of section 4.1) `data.draw_bytes(8, draw_float_bytes)`
returns the next 8 bytes of the source, the sampling function only biasing
fresh generation; the result is `struct.unpack(b'!d', ...)` of those bytes
with no further check. -/
def WrapperFloatStrategy.do_draw (sourceBytes : List Nat) : Nat :=
  unpack_double sourceBytes

/-- `WrapperFloatStrategy.do_draw(self, data)` when the byte source
generates fresh bytes through the supplied `draw_float_bytes` distribution:
unpack whatever bytes the distribution produced. -/
def WrapperFloatStrategy.do_draw_fresh (allow_infinity allow_nan : Bool)
    (fuel : Nat) (vs : List Nat) : Option Nat :=
  (draw_float_bytes allow_infinity allow_nan fuel vs).map unpack_double

/-- True when `bs` is the packing of some catalog value permitted by the
flags. -/
def fromCatalog (allow_infinity allow_nan : Bool) (bs : List Nat) : Bool :=
  NASTY_FLOATS.any fun f =>
    permitted allow_infinity allow_nan f && decide (bs = pack_double f)

/-! ## `numbers.py`: BoundedIntStrategy (claim C4) -/

/-- `BoundedIntStrategy`: inclusive integer interval strategy. -/
structure BoundedIntStrategy where
  start : Int
  end' : Int
  deriving DecidableEq, Repr

/-- `BoundedIntStrategy.__init__(self, start, end)`: stores the bounds and
raises `ValueError(u'Invalid range [%d, %d]')` when `start > end`. -/
def BoundedIntStrategy.init (start end' : Int) : Except PyError BoundedIntStrategy :=
  if start > end' then
    .error (.valueError ("Invalid range [" ++ toString start ++ ", " ++ toString end' ++ "]"))
  else .ok (BoundedIntStrategy.mk start end')

/-- Modelled from the spec: `integer_range(byteSource, start, end)` from
`hypothesis.internal.conjecture.utils` is not part of the excerpt; per the
spec (section 4.2) it samples uniformly over the inclusive range
`[start, end]`.  The byte source draw is represented by the natural number
`n` it yields, reduced uniformly into the range. -/
def integer_range (n : Nat) (start end' : Int) : Int :=
  start + ((n % ((end' - start).toNat + 1) : Nat) : Int)

/-- `BoundedIntStrategy.do_draw(self, data)`:
`d.integer_range(data, self.start, self.end)`. -/
def BoundedIntStrategy.do_draw (s : BoundedIntStrategy) (n : Nat) : Int :=
  integer_range n s.start s.end'

/-! ## `numbers.py`: ExponentialFloatStrategy (claim C9)

The value domain of these bounded generators is represented by `ℚ`
(abstracting the finite doubles, whose arithmetic the claim does not
depend on). -/

/-- Modelled from the spec: `sign` from `hypothesis.internal.floats` is not
part of the excerpt; per the spec (section 4.2) it returns the sign class
of a value, negative values below nonnegative ones. -/
def sign (x : ℚ) : Int := if x < 0 then -1 else 1

/-- Modelled from the spec: `assume` from `hypothesis.control` is not part
of the excerpt; per the spec (sections 4.1 and 7) it signals a recoverable
unsatisfied-assumption condition when its argument is falsy. -/
def assume (c : Bool) : Except PyError Unit :=
  if c then .ok () else .error .unsatisfiedAssumption

/-- The local `distribution(random, n)` of
`ExponentialFloatStrategy.do_draw`: `i = random.randint(0, 10)`; `i = 0`
snaps to the lower bound, `i = 1` to the upper bound; otherwise interpolate
a uniform fraction `u` between the bounds, first collapsing one side to
zero (by the coin `coin`) when the interval straddles zero.  (`-0.0`
collapses to `0` in the `ℚ` value domain.) -/
def ExponentialFloatStrategy.distribution (lower_bound upper_bound : ℚ)
    (i : Nat) (coin : Bool) (u : ℚ) : ℚ :=
  if i = 0 then lower_bound
  else if i = 1 then upper_bound
  else
    let lu : ℚ × ℚ :=
      if lower_bound < 0 ∧ 0 < upper_bound then
        if coin then (0, upper_bound) else (lower_bound, 0)
      else (lower_bound, upper_bound)
    lu.1 + (lu.2 - lu.1) * u

/-- `ExponentialFloatStrategy.do_draw(self, data)`: `f` is the value the
byte source decodes to (the 8 bytes unpacked; arbitrary, since the source
controls them); then `assume(self.lower_bound <= f <= self.upper_bound)`
and `assume(sign(self.lower_bound) <= sign(f) <= sign(self.upper_bound))`
before returning `f`. -/
def ExponentialFloatStrategy.do_draw (lower_bound upper_bound f : ℚ) :
    Except PyError ℚ :=
  match assume (decide (lower_bound ≤ f) && decide (f ≤ upper_bound)) with
  | .error e => .error e
  | .ok _ =>
    match assume (decide (sign lower_bound ≤ sign f) && decide (sign f ≤ sign upper_bound)) with
    | .error e => .error e
    | .ok _ => .ok f

/-! ## `core.py`: candidate classification

The byte-source classification comes from the conjecture collaborator
(`hypothesis.internal.conjecture.data`), which is not part of the excerpt. -/

/-- Modelled from the spec: the ByteSource classification (spec sections 2,
3 and glossary): overflow, invalid, valid, interesting, ordered in that
sequence so that "below valid" means overflow or invalid. -/
inductive Status where
  | overrun
  | invalid
  | valid
  | interesting
  deriving DecidableEq, Repr

/-- Numeric rank of a classification, matching the ordering used by
`data.status < Status.VALID` comparisons. -/
def Status.rank : Status → Nat
  | .overrun => 0
  | .invalid => 1
  | .valid => 2
  | .interesting => 3

/-- `a < b` on classifications. -/
def Status.below (a b : Status) : Bool := a.rank < b.rank

/-! ## `core.py`: evaluate_test_data (claims C7, C8)

`evaluate_test_data(data)` is the classification callback handed to the
Engine.  The user test call is abstracted by its observable behaviour: how
the call exits, and whether the global random state changed across it.
`data.mark_invalid()` and `data.mark_interesting()` freeze the data and
raise `StopTest` (conjecture collaborator semantics, spec section 3: once
classified invalid or interesting the source is frozen). -/

/-- How one executed test call exits. -/
inductive TestCallOutcome where
  | returns (value : Option Nat)
  | raisesUnsatisfiedAssumption
  | raisesDeprecationWarning
  | raisesFailedHealthCheck (msg : String)
  | raisesOther (tb : String) (text_repr : String)
  deriving DecidableEq, Repr

/-- Observable behaviour of one candidate evaluation: the call outcome and
whether `random.getstate()` changed across the call. -/
structure CallBehavior where
  outcome : TestCallOutcome
  randChanged : Bool
  deriving DecidableEq, Repr

/-- The mutable cells of `wrapped_test` threaded through evaluations:
`warned_random[0]`, `last_exception[0]`, `repr_for_last_exception[0]`. -/
structure EvalState where
  warned_random : Bool
  last_exception : Option String
  repr_for_last_exception : Option String
  deriving DecidableEq, Repr

/-- The per-candidate byte-source state touched by the callback. -/
structure DataState where
  status : Status
  frozen : Bool
  deriving DecidableEq, Repr

/-- Health-monitor events observable in one evaluation: taking the ambient
random-state snapshot, comparing against it in the `finally` block, and
the two escalation modes of `fail_health_check` for the ambient-randomness
message (raise when `settings.strict`, warn otherwise). -/
inductive EvalEvent where
  | snapshottedRandomState
  | checkedRandomState
  | randWarningRaised
  | randWarningWarned
  deriving DecidableEq, Repr

/-- Result of one `evaluate_test_data` call. -/
structure EvalResult where
  state : EvalState
  data : DataState
  events : List EvalEvent
  raised : Option PyError
  deriving DecidableEq, Repr

/-- Message of the hard health-check raise for a non-None return. -/
def nonNoneReturnMsg : String :=
  "Tests run under @given should return None, but the test returned a value instead."

/-- Message of the ambient-randomness health-check failure. -/
def globalRandomMsg : String :=
  "Your test used the global random module. This is unlikely to work correctly."

/-- `evaluate_test_data(data)` (core.py lines 395-435).  Walks the source:
take the ambient snapshot when health checking is active and the warning
has not fired; run the test; on a non-None return with
`settings.perform_health_check` raise `FailedHealthCheck` directly (not
through `fail_health_check`); on `UnsatisfiedAssumption` mark the data
invalid; re-raise deprecation warnings and health-check failures; on any
other exception record the traceback and call repr and mark the data
interesting unless frozen; in the `finally` block, when the warning has
not fired, health checking is active and the ambient state changed, set
`warned_random` and escalate through `fail_health_check` (raise when
`settings.strict`, else warn — a raise here replaces any in-flight
exception, as a Python `finally` raise does). -/
def evaluate_test_data (perform_health_check settings_perform_health_check strict : Bool)
    (call : CallBehavior) (st : EvalState) (d : DataState) : EvalResult :=
  let snapshot := perform_health_check && !st.warned_random
  let snapEvents := if snapshot then [EvalEvent.snapshottedRandomState] else []
  let body : EvalState × DataState × Option PyError :=
    match call.outcome with
    | .returns v =>
      if v.isSome && settings_perform_health_check then
        (st, d, some (.failedHealthCheck nonNoneReturnMsg))
      else (st, d, none)
    | .raisesUnsatisfiedAssumption =>
      (st, DataState.mk Status.invalid true, some .stopTest)
    | .raisesDeprecationWarning => (st, d, some .deprecationWarning)
    | .raisesFailedHealthCheck msg => (st, d, some (.failedHealthCheck msg))
    | .raisesOther tb text_repr =>
      let st1 := { st with last_exception := some tb,
                           repr_for_last_exception := some text_repr }
      if d.frozen then (st1, d, none)
      else (st1, DataState.mk Status.interesting true, some .stopTest)
  let st1 := body.1
  let d1 := body.2.1
  let pending := body.2.2
  if !st1.warned_random && perform_health_check then
    if call.randChanged then
      let st2 := { st1 with warned_random := true }
      if strict then
        EvalResult.mk st2 d1
          (snapEvents ++ [EvalEvent.checkedRandomState, EvalEvent.randWarningRaised])
          (some (.failedHealthCheck globalRandomMsg))
      else
        EvalResult.mk st2 d1
          (snapEvents ++ [EvalEvent.checkedRandomState, EvalEvent.randWarningWarned])
          pending
    else
      EvalResult.mk st1 d1 (snapEvents ++ [EvalEvent.checkedRandomState]) pending
  else EvalResult.mk st1 d1 snapEvents pending

/-- One engine step around a candidate evaluation result: `StopTest` raised
for the current data is caught by the Engine and the run continues; any
other escaping exception ends the run; `cont` is the rest of the run. -/
def runStep (r : EvalResult)
    (cont : EvalState → List (List EvalEvent) × EvalState × Option PyError) :
    List (List EvalEvent) × EvalState × Option PyError :=
  match r.raised with
  | some PyError.stopTest => (r.events :: (cont r.state).1, (cont r.state).2)
  | some e => ([r.events], r.state, some e)
  | none => (r.events :: (cont r.state).1, (cont r.state).2)

/-- A run of candidate evaluations: each candidate owns a fresh byte source
(initial status valid, not frozen).  Returns the per-candidate event lists,
the final mutable state, and the exception that ended the run, if any. -/
def runEvaluations (perform_health_check settings_perform_health_check strict : Bool) :
    List CallBehavior → EvalState → List (List EvalEvent) × EvalState × Option PyError
  | [], st => ([], st, none)
  | c :: rest, st =>
    runStep
      (evaluate_test_data perform_health_check settings_perform_health_check strict
        c st (DataState.mk Status.valid false))
      (runEvaluations perform_health_check settings_perform_health_check strict rest)

/-- Initial mutable state of a run: `warned_random = [False]`,
`last_exception = [None]`, `repr_for_last_exception = [None]`. -/
def evalInit : EvalState := EvalState.mk false none none

/-- True when the event list contains an ambient-randomness escalation. -/
def firedIn (evs : List EvalEvent) : Bool :=
  evs.contains EvalEvent.randWarningRaised || evs.contains EvalEvent.randWarningWarned

/-- True exactly on `some (PyError.failedHealthCheck _)`. -/
def raisedFailedHealthCheck (r : EvalResult) : Bool :=
  match r.raised with
  | some (.failedHealthCheck _) => true
  | _ => false

/-! ## `core.py`: the orchestrator `wrapped_test` (claims C2, C3, C5, C6)

The orchestrator is modelled over its collaborators (spec section 6): the
per-example execution outcome, the database fetch result, the status a
replayed buffer classifies to, the Engine run result, and the outcomes of
the phase-4 re-executions.  It produces a trace of events plus a final
result, so ordering claims are claims about the trace. -/

/-- A stored byte buffer. -/
abbrev Buffer := List Nat

/-- The settings fields the orchestrator reads. -/
structure Settings where
  max_examples : Int
  min_satisfying_examples : Int
  timeout : ℚ
  strict : Bool
  perform_health_check : Bool
  hasDatabase : Bool
  deriving DecidableEq, Repr

/-- What `TestRunner.run()` exposes afterwards: `last_data.status`,
`last_data.buffer`, `valid_examples`, and the measured wall-clock time. -/
structure EngineResult where
  lastStatus : Status
  lastBuffer : Buffer
  valid_examples : Nat
  run_time : ℚ
  deriving DecidableEq, Repr

/-- Outcome of one phase-4 re-execution of the falsifying buffer:
the assumption fails during the draw, some exception is raised, or the
call returns normally having produced the given literal call repr. -/
inductive RerunOutcome where
  | assumptionFailed
  | raised (e : PyError)
  | returned (text_repr : String)
  deriving DecidableEq, Repr

/-- Observable orchestrator events. -/
inductive Event where
  | ranExplicitExample (idx : Nat)
  | reportedExampleFailure (idx : Nat)
  | dbReplayed (buf : Buffer)
  | dbDeleted (buf : Buffer)
  | engineRun
  | dbSaved (buf : Buffer)
  | reran (buf : Buffer)
  deriving DecidableEq, Repr

/-- Final result of one orchestrated run: a normal return or a raised
exception. -/
inductive RunResult where
  | returned
  | error (e : PyError)
  deriving DecidableEq, Repr

/-- The whole environment one `wrapped_test` call runs in.  Explicit
examples are indexed `0 .. numExamples - 1` in declaration order. -/
structure OrchestratorEnv where
  numExamples : Nat
  exampleOutcome : Nat → Option PyError
  settings : Settings
  storedBuffers : List Buffer
  replayStatus : Buffer → Status
  engine : EngineResult
  rerun1 : Buffer → RerunOutcome
  rerun2 : Buffer → RerunOutcome
  repr_for_last_exception : String

/-- Phase 1 (core.py lines 245-273): run the explicit examples in the
given index order; each runs once; on any raised error report the
precomputed falsifying-example message and propagate the error
immediately. -/
def runExplicitExamples (outcome : Nat → Option PyError) :
    List Nat → List Event × Option PyError
  | [] => ([], none)
  | i :: rest =>
    match outcome i with
    | some e => ([Event.ranExplicitExample i, Event.reportedExampleFailure i], some e)
    | none =>
      let tl := runExplicitExamples outcome rest
      (Event.ranExplicitExample i :: tl.1, tl.2)

/-- Phase 1 applied as the source does: `for example in reversed(...)`,
so indices run from `numExamples - 1` down to `0`. -/
def phase1Result (env : OrchestratorEnv) : List Event × Option PyError :=
  runExplicitExamples env.exampleOutcome (List.range env.numExamples).reverse

/-- Phase 2 (core.py lines 443-455): for each stored buffer in fetch
order, reconstruct a byte source and classify it; delete it when the
classification is below valid; stop at the first buffer classifying
interesting and keep it as the falsifying example. -/
def databaseReplay (replayStatus : Buffer → Status) :
    List Buffer → List Event × Option Buffer
  | [] => ([], none)
  | b :: rest =>
    if replayStatus b = Status.interesting then
      (Event.dbReplayed b ::
        (if (replayStatus b).below Status.valid then [Event.dbDeleted b] else []),
       some b)
    else
      (Event.dbReplayed b ::
        (if (replayStatus b).below Status.valid then [Event.dbDeleted b] else []) ++
        (databaseReplay replayStatus rest).1,
       (databaseReplay replayStatus rest).2)

/-- `timed_out` (core.py lines 465-468):
`settings.timeout > 0 and run_time >= settings.timeout`. -/
def timed_out (s : Settings) (run_time : ℚ) : Bool :=
  decide (s.timeout > 0) && decide (run_time ≥ s.timeout)

/-- How the orchestrator classifies the Engine outcome
(core.py lines 469-498). -/
inductive SearchOutcome where
  | falsifying (buf : Buffer)
  | raiseTimeout
  | raiseUnsatisfiable
  | returnNormally
  deriving DecidableEq, Repr

/-- Classify the Engine result: interesting gives a falsifying example;
otherwise too few valid examples raise Timeout (when timed out) or
Unsatisfiable; otherwise return normally. -/
def classifyEngineOutcome (s : Settings) (r : EngineResult) : SearchOutcome :=
  if r.lastStatus = Status.interesting then .falsifying r.lastBuffer
  else if (r.valid_examples : Int) < min s.min_satisfying_examples s.max_examples then
    if timed_out s r.run_time then .raiseTimeout else .raiseUnsatisfiable
  else .returnNormally

/-- `Timeout` message (abridged from core.py lines 481-489). -/
def timeoutMsg : String :=
  "Ran out of time before finding a satisfying example for the test."

/-- `Unsatisfiable` message (abridged from core.py lines 491-497). -/
def unsatisfiableMsg : String :=
  "Unable to satisfy assumptions of hypothesis test."

/-- Flaky message for an assumption failing on re-execution
(core.py lines 512-515). -/
def flakyUnreliableAssumptionMsg : String :=
  "Unreliable assumption: An example which satisfied assumptions on the first run now fails it."

/-- Flaky message for the example being filtered out while recreating it
(core.py lines 531-538). -/
def flakyUnreliableDataMsg : String :=
  "Unreliable test data: Failed to reproduce a failure and then the example was filtered out when recreating it."

/-- `test_is_flaky` message when the literal call repr matches the original
(core.py lines 63-68). -/
def flakySameReprMsg (text_repr : String) : String :=
  "Hypothesis test(" ++ text_repr ++ ") produces unreliable results: Falsified on the first call but not on a subsequent one"

/-- `test_is_flaky` message when the literal call repr differs from the
original (core.py lines 69-76). -/
def flakyDiffReprMsg (expected_repr text_repr : String) : String :=
  "Hypothesis test produces unreliable results: Falsified on the first call but not on a subsequent one. This is possibly due to unreliable values, which may be a bug in the strategy. Call 1: "
    ++ expected_repr ++ " Call 2: " ++ text_repr

/-- Phase 4 (core.py lines 500-545): re-execute the test on a byte source
rebuilt from the exact falsifying buffer.  An assumption failure raises
Flaky (unreliable assumption); any other exception propagates as the
confirmed failure.  If the call returns normally, report the failed
reproduction and run once more wrapped in `test_is_flaky`: an assumption
failure during that draw raises Flaky (unreliable data), an exception from
the draw propagates, and otherwise `test_is_flaky` raises Flaky with the
message chosen by whether the fresh call repr equals the recorded one.
Every branch of the second run raises, so the third call (lines 539-545)
is unreachable under the default executor. -/
def finalReproduction (env : OrchestratorEnv) (buf : Buffer) : List Event × RunResult :=
  match env.rerun1 buf with
  | .assumptionFailed =>
    ([Event.reran buf], .error (.flaky flakyUnreliableAssumptionMsg))
  | .raised e => ([Event.reran buf], .error e)
  | .returned _ =>
    match env.rerun2 buf with
    | .assumptionFailed =>
      ([Event.reran buf, Event.reran buf], .error (.flaky flakyUnreliableDataMsg))
    | .raised e => ([Event.reran buf, Event.reran buf], .error e)
    | .returned text_repr =>
      if text_repr = env.repr_for_last_exception then
        ([Event.reran buf, Event.reran buf],
          .error (.flaky (flakySameReprMsg text_repr)))
      else
        ([Event.reran buf, Event.reran buf],
          .error (.flaky (flakyDiffReprMsg env.repr_for_last_exception text_repr)))

/-- Result of `database.fetch` replay: the replay events and falsifying
buffer when a database is configured, nothing otherwise. -/
def databasePhase (env : OrchestratorEnv) : List Event × Option Buffer :=
  if env.settings.hasDatabase then databaseReplay env.replayStatus env.storedBuffers
  else ([], none)

/-- Phases 2-4 of `wrapped_test`, reached once the explicit examples have
all passed and `max_examples > 0`: database replay when a database is
configured; randomized search through the Engine only when replay found
nothing, classifying its outcome and persisting a found falsifying buffer;
verified reproduction on any falsifying buffer. -/
def searchAndReport (env : OrchestratorEnv) : List Event × RunResult :=
  match databasePhase env with
  | (ev2, some buf) =>
    (ev2 ++ (finalReproduction env buf).1, (finalReproduction env buf).2)
  | (ev2, none) =>
    match classifyEngineOutcome env.settings env.engine with
    | .falsifying buf =>
      (ev2 ++ [Event.engineRun] ++
        (if env.settings.hasDatabase then [Event.dbSaved buf] else []) ++
        (finalReproduction env buf).1,
       (finalReproduction env buf).2)
    | .raiseTimeout => (ev2 ++ [Event.engineRun], .error (.timeoutError timeoutMsg))
    | .raiseUnsatisfiable =>
      (ev2 ++ [Event.engineRun], .error (.unsatisfiable unsatisfiableMsg))
    | .returnNormally => (ev2 ++ [Event.engineRun], .returned)

/-- The body of `wrapped_test` (core.py lines 220-545): phase 1 explicit
examples (propagating the first failure); early return when
`max_examples <= 0`; then the replay, search and reproduction phases. -/
def wrappedTest (env : OrchestratorEnv) : List Event × RunResult :=
  match phase1Result env with
  | (ev1, some e) => (ev1, .error e)
  | (ev1, none) =>
    if env.settings.max_examples ≤ 0 then (ev1, .returned)
    else (ev1 ++ (searchAndReport env).1, (searchAndReport env).2)

/-- The falsifying buffer an orchestrated run observes, if any: the first
interesting stored buffer under replay, or else the Engine's interesting
last buffer (reachable only when phase 1 passed and search ran). -/
def observedFalsifying (env : OrchestratorEnv) : Option Buffer :=
  match (phase1Result env).2 with
  | some _ => none
  | none =>
    if env.settings.max_examples ≤ 0 then none
    else
      match (databasePhase env).2 with
      | some b => some b
      | none =>
        match classifyEngineOutcome env.settings env.engine with
        | .falsifying b => some b
        | _ => none

/-- True on phase-1 events. -/
def isExplicitEvent : Event → Bool
  | .ranExplicitExample _ => true
  | .reportedExampleFailure _ => true
  | _ => false

/-- True on database-replay and search events. -/
def isSearchEvent : Event → Bool
  | .dbReplayed _ => true
  | .dbDeleted _ => true
  | .engineRun => true
  | .dbSaved _ => true
  | _ => false

/-- The buffers replayed from the database, in trace order. -/
def replayedBuffers (tr : List Event) : List Buffer :=
  tr.filterMap fun e =>
    match e with
    | .dbReplayed b => some b
    | _ => none

/-- The buffers deleted from the database, in trace order. -/
def deletedBuffers (tr : List Event) : List Buffer :=
  tr.filterMap fun e =>
    match e with
    | .dbDeleted b => some b
    | _ => none

/-! ## Concrete environments used to witness the theorems -/

/-- A clean run: two explicit examples that pass, no database, and an
Engine result with enough valid examples. -/
def envC5a : OrchestratorEnv where
  numExamples := 2
  exampleOutcome := fun _ => none
  settings := Settings.mk 10 5 0 false true false
  storedBuffers := []
  replayStatus := fun _ => Status.valid
  engine := EngineResult.mk Status.valid [] 5 0
  rerun1 := fun _ => RerunOutcome.raised (PyError.userError "boom")
  rerun2 := fun _ => RerunOutcome.raised (PyError.userError "boom")
  repr_for_last_exception := "test(0)"

/-- A run whose second-declared explicit example raises. -/
def envC5b : OrchestratorEnv where
  numExamples := 3
  exampleOutcome := fun i => if i = 1 then some (PyError.userError "boom") else none
  settings := Settings.mk 10 5 0 false true false
  storedBuffers := []
  replayStatus := fun _ => Status.valid
  engine := EngineResult.mk Status.valid [] 5 0
  rerun1 := fun _ => RerunOutcome.raised (PyError.userError "boom")
  rerun2 := fun _ => RerunOutcome.raised (PyError.userError "boom")
  repr_for_last_exception := "test(0)"

/-- A run with a database whose second stored buffer replays as
interesting, and whose re-executions return normally with a call repr
matching the recorded one. -/
def envC2 : OrchestratorEnv where
  numExamples := 0
  exampleOutcome := fun _ => none
  settings := Settings.mk 10 5 0 false true true
  storedBuffers := [[0], [1], [2]]
  replayStatus := fun b => if b = [0] then Status.invalid
    else if b = [1] then Status.interesting else Status.valid
  engine := EngineResult.mk Status.valid [] 5 0
  rerun1 := fun _ => RerunOutcome.returned "test(0)"
  rerun2 := fun _ => RerunOutcome.returned "test(0)"
  repr_for_last_exception := "test(0)"

/-- A run with a database whose stored buffers replay as invalid,
interesting and valid in that order, and whose re-execution reproduces
the failure. -/
def envC3 : OrchestratorEnv where
  numExamples := 0
  exampleOutcome := fun _ => none
  settings := Settings.mk 10 5 0 false true true
  storedBuffers := [[0], [1], [2]]
  replayStatus := fun x => if x = [0] then Status.invalid
    else if x = [1] then Status.interesting else Status.valid
  engine := EngineResult.mk Status.valid [] 5 0
  rerun1 := fun _ => RerunOutcome.raised (PyError.userError "boom")
  rerun2 := fun _ => RerunOutcome.raised (PyError.userError "boom")
  repr_for_last_exception := "test(0)"

/-- A run with a database whose stored buffers replay as invalid and valid
(none interesting), so replay deletes the stale buffer and the Engine
runs. -/
def envC3b : OrchestratorEnv where
  numExamples := 0
  exampleOutcome := fun _ => none
  settings := Settings.mk 10 5 0 false true true
  storedBuffers := [[0], [2]]
  replayStatus := fun x => if x = [0] then Status.invalid else Status.valid
  engine := EngineResult.mk Status.valid [] 5 0
  rerun1 := fun _ => RerunOutcome.raised (PyError.userError "boom")
  rerun2 := fun _ => RerunOutcome.raised (PyError.userError "boom")
  repr_for_last_exception := "test(0)"

/-- A run whose search finds nothing and observes zero valid examples with
no timeout configured. -/
def envC6 : OrchestratorEnv where
  numExamples := 0
  exampleOutcome := fun _ => none
  settings := Settings.mk 10 5 0 false true false
  storedBuffers := []
  replayStatus := fun _ => Status.valid
  engine := EngineResult.mk Status.valid [] 0 0
  rerun1 := fun _ => RerunOutcome.raised (PyError.userError "boom")
  rerun2 := fun _ => RerunOutcome.raised (PyError.userError "boom")
  repr_for_last_exception := "test(0)"

/-- Two candidate evaluations that both perturb the global random state. -/
def callsC7 : List CallBehavior :=
  [CallBehavior.mk (.returns none) true, CallBehavior.mk (.returns none) true]

/-! ## Shared lemmas -/

/-- The self-check of the source (`assert len(NASTY_FLOATS) == 32`). -/
theorem nasty_floats_length : NASTY_FLOATS.length = 32 := by decide

/-- When every listed example passes, phase 1 runs them all, in order,
producing exactly one run event per example. -/
theorem runExplicit_all_ok (outcome : Nat → Option PyError) :
    ∀ l : List Nat, (∀ i ∈ l, outcome i = none) →
      runExplicitExamples outcome l = (l.map Event.ranExplicitExample, none) := by
  intro l
  induction l with
  | nil => intro _; rfl
  | cons i rest ih =>
    intro h
    rw [runExplicitExamples, h i (List.mem_cons_self i rest),
      ih (fun k hk => h k (List.mem_cons_of_mem i hk))]
    rfl

/-- Phase 1 only emits explicit-example events. -/
theorem runExplicit_explicit (outcome : Nat → Option PyError) :
    ∀ (l : List Nat), ∀ e ∈ (runExplicitExamples outcome l).1, isExplicitEvent e = true := by
  intro l
  induction l with
  | nil => intro e he; simp [runExplicitExamples] at he
  | cons i rest ih =>
    intro e he
    rw [runExplicitExamples] at he
    rcases ho : outcome i with _ | err <;> rw [ho] at he <;> simp at he
    · rcases he with h1 | h2
      · rw [h1]; rfl
      · exact ih e h2
    · rcases he with h1 | h2 <;> (first | (rw [h1]; rfl) | (rw [h2]; rfl))

/-- Database replay only emits search-phase events. -/
theorem databaseReplay_search (rs : Buffer → Status) :
    ∀ (l : List Buffer), ∀ e ∈ (databaseReplay rs l).1, isSearchEvent e = true := by
  intro l
  induction l with
  | nil => intro e he; simp [databaseReplay] at he
  | cons b rest ih =>
    intro e he
    rw [databaseReplay] at he
    by_cases hi : rs b = Status.interesting
    · rw [if_pos hi] at he
      by_cases hd : (rs b).below Status.valid = true <;>
        simp [hd] at he
      · rcases he with h | h <;> (rw [h]; rfl)
      · rw [he]; rfl
    · rw [if_neg hi] at he
      by_cases hd : (rs b).below Status.valid = true <;>
        simp [hd] at he
      · rcases he with h | h | h
        · rw [h]; rfl
        · rw [h]; rfl
        · exact ih e h
      · rcases he with h | h
        · rw [h]; rfl
        · exact ih e h

/-- Every database-replay event is a replay or a deletion. -/
theorem databaseReplay_shape (rs : Buffer → Status) :
    ∀ (l : List Buffer), ∀ e ∈ (databaseReplay rs l).1,
      (∃ b, e = Event.dbReplayed b) ∨ (∃ b, e = Event.dbDeleted b) := by
  intro l
  induction l with
  | nil => intro e he; simp [databaseReplay] at he
  | cons b rest ih =>
    intro e he
    rw [databaseReplay] at he
    by_cases hi : rs b = Status.interesting
    · rw [if_pos hi] at he
      by_cases hd : (rs b).below Status.valid = true <;> simp [hd] at he
      · rcases he with h | h
        · exact Or.inl ⟨b, h⟩
        · exact Or.inr ⟨b, h⟩
      · exact Or.inl ⟨b, he⟩
    · rw [if_neg hi] at he
      by_cases hd : (rs b).below Status.valid = true <;> simp [hd] at he
      · rcases he with h | h | h
        · exact Or.inl ⟨b, h⟩
        · exact Or.inr ⟨b, h⟩
        · exact ih e h
      · rcases he with h | h
        · exact Or.inl ⟨b, h⟩
        · exact ih e h

/-- Database replay never runs the Engine. -/
theorem databaseReplay_no_engine (rs : Buffer → Status) :
    ∀ (l : List Buffer), Event.engineRun ∉ (databaseReplay rs l).1 := by
  intro l hmem
  rcases databaseReplay_shape rs l Event.engineRun hmem with ⟨b, hb⟩ | ⟨b, hb⟩ <;>
    simp at hb

/-- Phase 4 only re-executes the falsifying buffer. -/
theorem finalReproduction_events (env : OrchestratorEnv) (buf : Buffer) :
    ∀ e ∈ (finalReproduction env buf).1, e = Event.reran buf := by
  intro e he
  rw [finalReproduction] at he
  rcases h1 : env.rerun1 buf with _ | e1 | r1 <;> rw [h1] at he
  · simpa using he
  · simpa using he
  · simp only at he
    rcases h2 : env.rerun2 buf with _ | e2 | r2 <;> rw [h2] at he <;> simp only at he
    · simpa using he
    · simpa using he
    · by_cases hr : r2 = env.repr_for_last_exception
      · rw [if_pos hr] at he
        simpa using he
      · rw [if_neg hr] at he
        simpa using he

/-- Phase 4 always re-executes the falsifying buffer at least once. -/
theorem finalReproduction_mem (env : OrchestratorEnv) (buf : Buffer) :
    Event.reran buf ∈ (finalReproduction env buf).1 := by
  rw [finalReproduction]
  rcases h1 : env.rerun1 buf with _ | e1 | r1 <;> simp
  rcases h2 : env.rerun2 buf with _ | e2 | r2 <;> simp
  split <;> simp

/-- Explicit-example events carry no replay, deletion or Engine activity. -/
theorem explicit_no_buffers (tr : List Event)
    (h : ∀ e ∈ tr, isExplicitEvent e = true) :
    replayedBuffers tr = [] ∧ deletedBuffers tr = [] ∧ Event.engineRun ∉ tr := by
  induction tr with
  | nil => exact ⟨rfl, rfl, by simp⟩
  | cons e rest ih =>
    have he := h e (List.mem_cons_self e rest)
    have ihr := ih fun x hx => h x (List.mem_cons_of_mem e hx)
    cases e <;> simp [isExplicitEvent] at he <;>
      simp [replayedBuffers, deletedBuffers, List.filterMap_cons] at ihr ⊢ <;>
      exact ⟨ihr.1, ihr.2.1, fun hc => ihr.2.2 hc⟩

/-- Re-execution events carry no replay, deletion or Engine activity. -/
theorem reran_no_buffers (tr : List Event) (buf : Buffer)
    (h : ∀ e ∈ tr, e = Event.reran buf) :
    replayedBuffers tr = [] ∧ deletedBuffers tr = [] ∧ Event.engineRun ∉ tr := by
  induction tr with
  | nil => exact ⟨rfl, rfl, by simp⟩
  | cons e rest ih =>
    have he := h e (List.mem_cons_self e rest)
    have ihr := ih fun x hx => h x (List.mem_cons_of_mem e hx)
    subst he
    simp [replayedBuffers, deletedBuffers, List.filterMap_cons] at ihr ⊢
    exact ⟨ihr.1, ihr.2.1, fun hc => ihr.2.2 hc⟩

/-- Replayed buffers distribute over trace concatenation. -/
theorem replayedBuffers_append (l1 l2 : List Event) :
    replayedBuffers (l1 ++ l2) = replayedBuffers l1 ++ replayedBuffers l2 := by
  simp [replayedBuffers, List.filterMap_append]

/-- Deleted buffers distribute over trace concatenation. -/
theorem deletedBuffers_append (l1 l2 : List Event) :
    deletedBuffers (l1 ++ l2) = deletedBuffers l1 ++ deletedBuffers l2 := by
  simp [deletedBuffers, List.filterMap_append]

/-- Characterization of database replay when some stored buffer replays as
interesting: replay visits exactly the prefix up to and including the
first such buffer, returns it, and deletes exactly the visited buffers
whose classification is below valid. -/
theorem databaseReplay_found (rs : Buffer → Status) :
    ∀ (l : List Buffer) (b : Buffer),
      l.find? (fun x => decide (rs x = Status.interesting)) = some b →
      (databaseReplay rs l).2 = some b ∧
      replayedBuffers (databaseReplay rs l).1 =
        l.takeWhile (fun x => !decide (rs x = Status.interesting)) ++ [b] ∧
      deletedBuffers (databaseReplay rs l).1 =
        (replayedBuffers (databaseReplay rs l).1).filter
          (fun x => (rs x).below Status.valid) := by
  intro l
  induction l with
  | nil => intro b hb; simp at hb
  | cons a rest ih =>
    intro b hb
    by_cases hi : rs a = Status.interesting
    · have hfa : List.find? (fun x => decide (rs x = Status.interesting)) (a :: rest)
          = some a := by simp [hi]
      rw [hfa] at hb
      have hab : a = b := by simpa using hb
      subst hab
      have hbel : (rs a).below Status.valid = false := by
        rw [hi]; rfl
      rw [databaseReplay, if_pos hi, hbel]
      refine ⟨rfl, ?_, ?_⟩
      · rw [List.takeWhile_cons_of_neg (by simp [hi])]
        simp [replayedBuffers]
      · simp [replayedBuffers, deletedBuffers, hbel]
    · have hb2 : List.find? (fun x => decide (rs x = Status.interesting)) rest
          = some b := by
        have hfa : List.find? (fun x => decide (rs x = Status.interesting)) (a :: rest)
            = List.find? (fun x => decide (rs x = Status.interesting)) rest := by
          simp [hi]
        rw [hfa] at hb
        exact hb
      rcases ih b hb2 with ⟨ih1, ih2, ih3⟩
      rw [databaseReplay, if_neg hi]
      refine ⟨ih1, ?_, ?_⟩
      · rw [List.takeWhile_cons_of_pos (by simp [hi])]
        by_cases hd : (rs a).below Status.valid = true <;>
          simp [hd, replayedBuffers, List.filterMap_cons, List.filterMap_append] at ih2 ⊢ <;>
          exact ih2
      · by_cases hd : (rs a).below Status.valid = true <;>
          simp [hd, replayedBuffers, deletedBuffers, List.filterMap_cons,
            List.filterMap_append, List.filter_cons] at ih2 ih3 ⊢ <;>
          exact ih3

/-- Characterization of database replay when no stored buffer replays as
interesting: every stored buffer is replayed, in order, no falsifying
record is produced, and exactly the replayed buffers whose classification
is below valid are deleted. -/
theorem databaseReplay_not_found (rs : Buffer → Status) :
    ∀ (l : List Buffer),
      l.find? (fun x => decide (rs x = Status.interesting)) = none →
      (databaseReplay rs l).2 = none ∧
      replayedBuffers (databaseReplay rs l).1 = l ∧
      deletedBuffers (databaseReplay rs l).1 =
        (replayedBuffers (databaseReplay rs l).1).filter
          (fun x => (rs x).below Status.valid) := by
  intro l
  induction l with
  | nil => intro _; exact ⟨rfl, rfl, rfl⟩
  | cons a rest ih =>
    intro hb
    by_cases hi : rs a = Status.interesting
    · have hfa : List.find? (fun x => decide (rs x = Status.interesting)) (a :: rest)
          = some a := by simp [hi]
      rw [hfa] at hb
      simp at hb
    · have hb2 : List.find? (fun x => decide (rs x = Status.interesting)) rest
          = none := by
        have hfa : List.find? (fun x => decide (rs x = Status.interesting)) (a :: rest)
            = List.find? (fun x => decide (rs x = Status.interesting)) rest := by
          simp [hi]
        rw [hfa] at hb
        exact hb
      rcases ih hb2 with ⟨ih1, ih2, ih3⟩
      rw [databaseReplay, if_neg hi]
      refine ⟨ih1, ?_, ?_⟩
      · by_cases hd : (rs a).below Status.valid = true <;>
          simp [hd, replayedBuffers, List.filterMap_cons, List.filterMap_append] at ih2 ⊢ <;>
          exact ih2
      · by_cases hd : (rs a).below Status.valid = true <;>
          simp [hd, replayedBuffers, deletedBuffers, List.filterMap_cons,
            List.filterMap_append, List.filter_cons] at ih2 ih3 ⊢ <;>
          exact ih3

/-- Whenever a run observes a falsifying buffer, the run result is the
phase-4 reproduction result and the buffer is re-executed. -/
theorem wrappedTest_falsifying (env : OrchestratorEnv) (buf : Buffer)
    (hobs : observedFalsifying env = some buf) :
    (wrappedTest env).2 = (finalReproduction env buf).2 ∧
    Event.reran buf ∈ (wrappedTest env).1 := by
  rcases hpair : phase1Result env with ⟨ev1, r⟩
  rw [observedFalsifying, hpair] at hobs
  simp only at hobs
  rcases r with _ | e
  · by_cases hm : env.settings.max_examples ≤ 0
    · rw [if_pos hm] at hobs
      simp at hobs
    · rw [if_neg hm] at hobs
      have hgoal : wrappedTest env =
          (ev1 ++ (searchAndReport env).1, (searchAndReport env).2) := by
        rw [wrappedTest, hpair]
        simp only
        rw [if_neg hm]
      rcases hdbv : (databasePhase env).2 with _ | b2 <;> rw [hdbv] at hobs <;>
        simp only at hobs
      · rcases hc : classifyEngineOutcome env.settings env.engine with buf2 | _ | _ | _ <;>
          rw [hc] at hobs <;> simp at hobs
        subst hobs
        have hsr : searchAndReport env =
            ((databasePhase env).1 ++ [Event.engineRun] ++
              (if env.settings.hasDatabase then [Event.dbSaved buf2] else []) ++
              (finalReproduction env buf2).1,
             (finalReproduction env buf2).2) := by
          rw [searchAndReport]
          rcases hdp : databasePhase env with ⟨ev2, f⟩
          rw [hdp] at hdbv
          simp only at hdbv
          subst hdbv
          simp only [hc]
        rw [hgoal, hsr]
        refine ⟨rfl, ?_⟩
        simp only [List.mem_append]
        exact Or.inr (Or.inr (finalReproduction_mem env buf2))
      · have hbb : b2 = buf := by simpa using hobs
        subst hbb
        have hsr : searchAndReport env =
            ((databasePhase env).1 ++ (finalReproduction env b2).1,
             (finalReproduction env b2).2) := by
          rw [searchAndReport]
          rcases hdp : databasePhase env with ⟨ev2, f⟩
          rw [hdp] at hdbv
          simp only at hdbv
          subst hdbv
          simp only
        rw [hgoal, hsr]
        refine ⟨rfl, ?_⟩
        simp only [List.mem_append]
        exact Or.inr (Or.inr (finalReproduction_mem env b2))
  · simp at hobs

/-- Once the ambient-randomness warning has fired, later evaluations in the
same run neither snapshot nor fire, and the flag stays set. -/
theorem eval_after_warned (phc sphc strict : Bool) (c : CallBehavior)
    (st : EvalState) (d : DataState) (hw : st.warned_random = true) :
    (evaluate_test_data phc sphc strict c st d).events = [] ∧
    (evaluate_test_data phc sphc strict c st d).state.warned_random = true := by
  cases c with
  | mk outcome randChanged =>
    cases outcome <;> cases phc <;>
      simp [evaluate_test_data, hw] <;>
      split <;> simp [hw]

/-- An evaluation whose events include a fired ambient-randomness warning
leaves the warned flag set. -/
theorem eval_fired_warned (phc sphc strict : Bool) (c : CallBehavior)
    (st : EvalState) (d : DataState)
    (hf : firedIn (evaluate_test_data phc sphc strict c st d).events = true) :
    (evaluate_test_data phc sphc strict c st d).state.warned_random = true := by
  cases c with
  | mk outcome randChanged =>
    cases hw : st.warned_random
    · cases outcome <;> cases phc <;> cases randChanged <;> cases strict <;>
        simp [evaluate_test_data, firedIn, hw] at hf ⊢ <;>
        split <;> simp_all [firedIn]
    · exact (eval_after_warned phc sphc strict ⟨outcome, randChanged⟩ st d hw).2

/-- A run entered with the warned flag set produces no health-monitor
events at all. -/
theorem run_after_warned (phc sphc strict : Bool) :
    ∀ (calls : List CallBehavior) (st : EvalState), st.warned_random = true →
      ∀ j, (runEvaluations phc sphc strict calls st).1.getD j [] = [] := by
  intro calls
  induction calls with
  | nil => intro st _ j; cases j <;> simp [runEvaluations]
  | cons c rest ih =>
    intro st hw j
    have he := eval_after_warned phc sphc strict c st (DataState.mk Status.valid false) hw
    rw [runEvaluations, runStep]
    rcases hr : (evaluate_test_data phc sphc strict c st (DataState.mk Status.valid false)).raised
      with _ | e
    · simp only
      cases j with
      | zero => simpa using he.1
      | succ j' => simpa using ih _ he.2 j'
    · cases e <;> simp only <;>
        (cases j with
         | zero => simpa using he.1
         | succ j' => first | simpa using ih _ he.2 j' | simp)

/-- After the evaluation at which the ambient-randomness check fired, every
later evaluation of the same run produces no health-monitor events. -/
theorem run_fired_later (phc sphc strict : Bool) :
    ∀ (calls : List CallBehavior) (st : EvalState) (i j : Nat), i < j →
      firedIn ((runEvaluations phc sphc strict calls st).1.getD i []) = true →
      (runEvaluations phc sphc strict calls st).1.getD j [] = [] := by
  intro calls
  induction calls with
  | nil =>
    intro st i j hij hf
    cases i <;> simp [runEvaluations, firedIn] at hf
  | cons c rest ih =>
    intro st i j hij hf
    rw [runEvaluations, runStep] at hf ⊢
    have hwfired := eval_fired_warned phc sphc strict c st (DataState.mk Status.valid false)
    rcases hr : (evaluate_test_data phc sphc strict c st (DataState.mk Status.valid false)).raised
      with _ | e
    · rw [hr] at hf
      simp only at hf ⊢
      cases i with
      | zero =>
        simp only [List.getD_cons_zero] at hf
        cases j with
        | zero => omega
        | succ j' =>
          simpa using run_after_warned phc sphc strict rest _ (hwfired hf) j'
      | succ i' =>
        cases j with
        | zero => omega
        | succ j' =>
          simpa using ih _ i' j' (by omega) (by simpa using hf)
    · cases e <;> rw [hr] at hf <;> simp only at hf ⊢ <;>
      [skip; skip; skip; skip;
       (cases i with
        | zero =>
          simp only [List.getD_cons_zero] at hf
          cases j with
          | zero => omega
          | succ j' =>
            simpa using run_after_warned phc sphc strict rest _ (hwfired hf) j'
        | succ i' =>
          cases j with
          | zero => omega
          | succ j' =>
            simpa using ih _ i' j' (by omega) (by simpa using hf));
       skip; skip; skip; skip; skip; skip] <;>
      (cases i with
       | zero =>
         cases j with
         | zero => omega
         | succ j' => simp
       | succ i' => simp [firedIn] at hf)

/-! ## Claim theorems -/

/-- Claim C1, counterexample: with `allow_nan = False` and
`allow_infinity = False`, a draw of `WrapperFloatStrategy` can still
decode to positive infinity: a byte source replaying the buffer
`7f f0 00 00 00 00 00 00` decodes to the infinity bit pattern, and so does
a fresh draw whose stream takes the uniform-bytes branch with those bytes,
because neither path applies the `permitted` filter to the result. -/
theorem C1_nonfinite_draw_counterexample :
    WrapperFloatStrategy.do_draw [127, 240, 0, 0, 0, 0, 0, 0] = 0x7ff0000000000000 ∧
    WrapperFloatStrategy.do_draw_fresh false false 1
      (4 :: [127, 240, 0, 0, 0, 0, 0, 0]) = some 0x7ff0000000000000 ∧
    isinf 0x7ff0000000000000 = true ∧
    permitted false false 0x7ff0000000000000 = false := by decide

/-- Claim C1, amended: only the boundary-catalog substitution branch of
the distribution is filtered by `permitted` — a random stream that always
selects the catalog branch yields only permitted packed catalog values —
while the uniform-bytes branch and the final unpacking are unchecked, so a
draw can still return NaN or infinity when the byte source supplies such a
pattern. -/
theorem C1_catalog_filter_only (allow_infinity allow_nan : Bool) (fuel : Nat)
    (vs bs : List Nat)
    (hsel : ∀ v ∈ vs, v % 10 ≤ 3)
    (h : draw_float_bytes allow_infinity allow_nan fuel vs = some bs) :
    fromCatalog allow_infinity allow_nan bs = true := by
  induction fuel generalizing vs with
  | zero => simp [draw_float_bytes] at h
  | succ n ih =>
    rw [draw_float_bytes] at h
    have hle : randint 1 10 (vs.headD 0) ≤ 4 := by
      cases vs with
      | nil => decide
      | cons v rest =>
        have := hsel v (List.mem_cons_self v rest)
        simp only [List.headD_cons, randint]
        omega
    rw [if_pos hle] at h
    set f := NASTY_FLOATS.getD (vs.tail.headD 0 % NASTY_FLOATS.length) 0 with hf
    by_cases hp : permitted allow_infinity allow_nan f = true
    · rw [if_pos hp] at h
      have hbs : bs = pack_double f := by
        injection h with h1
        exact h1.symm
      have hmem : f ∈ NASTY_FLOATS := by
        rw [hf]
        have hlt : vs.tail.headD 0 % NASTY_FLOATS.length < NASTY_FLOATS.length := by
          rw [nasty_floats_length]; omega
        rw [List.getD_eq_getElem _ _ hlt]
        exact List.getElem_mem _
      simp only [fromCatalog, List.any_eq_true]
      exact ⟨f, hmem, by simp [hp, hbs]⟩
    · rw [if_neg hp] at h
      exact ih vs.tail.tail
        (fun v hv => hsel v ((List.tail_subset _) ((List.tail_subset _) hv))) h

/-- Claim C1 witness: a stream that picks the catalog branch and lands on
the value `0.0` returns its packing, which is a permitted catalog value. -/
theorem C1_catalog_filter_only_witness :
    fromCatalog false false (pack_double 0) = true :=
  C1_catalog_filter_only false false 1 [0, 0] (pack_double 0) (by decide) (by decide)

/-- Claim C2: for every orchestrated run observing a falsifying buffer, the
run result is produced only after re-executing that exact buffer, and it
equals the phase-4 reproduction result; when the first re-execution
returns normally, every non-raising outcome of the verification rerun
yields a Flaky error, with the message chosen by whether the fresh literal
call repr equals the recorded one. -/
theorem C2_reproduction_before_report (env : OrchestratorEnv) (buf : Buffer)
    (r tr : String)
    (hobs : observedFalsifying env = some buf) :
    Event.reran buf ∈ (wrappedTest env).1 ∧
    (wrappedTest env).2 = (finalReproduction env buf).2 ∧
    (env.rerun1 buf = RerunOutcome.returned r →
      ((env.rerun2 buf = RerunOutcome.assumptionFailed →
        (finalReproduction env buf).2 =
          RunResult.error (PyError.flaky flakyUnreliableDataMsg)) ∧
       (env.rerun2 buf = RerunOutcome.returned tr →
        (finalReproduction env buf).2 =
          RunResult.error (PyError.flaky
            (if tr = env.repr_for_last_exception then flakySameReprMsg tr
             else flakyDiffReprMsg env.repr_for_last_exception tr))))) := by
  rcases wrappedTest_falsifying env buf hobs with ⟨hres, hmem⟩
  refine ⟨hmem, hres, ?_⟩
  intro h1
  constructor
  · intro h2
    rw [finalReproduction, h1, h2]
  · intro h2
    rw [finalReproduction, h1, h2]
    by_cases hr : tr = env.repr_for_last_exception
    · simp only [if_pos hr]
    · simp only [if_neg hr]

/-- Claim C2 witness, at `envC2`: the interesting stored buffer `[1]` is
re-executed, the result is the reproduction result, and since both reruns
return normally with the recorded repr, the run raises the matching-repr
Flaky error. -/
theorem C2_reproduction_before_report_witness :
    Event.reran [1] ∈ (wrappedTest envC2).1 ∧
    (wrappedTest envC2).2 = (finalReproduction envC2 [1]).2 ∧
    ((envC2.rerun2 [1] = RerunOutcome.assumptionFailed →
      (finalReproduction envC2 [1]).2 =
        RunResult.error (PyError.flaky flakyUnreliableDataMsg)) ∧
     (envC2.rerun2 [1] = RerunOutcome.returned "test(0)" →
      (finalReproduction envC2 [1]).2 =
        RunResult.error (PyError.flaky
          (if "test(0)" = envC2.repr_for_last_exception then flakySameReprMsg "test(0)"
           else flakyDiffReprMsg envC2.repr_for_last_exception "test(0)")))) :=
  ⟨(C2_reproduction_before_report envC2 [1] "test(0)" "test(0)" (by decide)).1,
   (C2_reproduction_before_report envC2 [1] "test(0)" "test(0)" (by decide)).2.1,
   (C2_reproduction_before_report envC2 [1] "test(0)" "test(0)" (by decide)).2.2 rfl⟩

/-- Claim C3: in every run with a configured database (explicit examples
passing and search enabled), the buffers deleted from the database are
exactly the replayed buffers whose classification is below valid; when
some stored buffer replays as interesting, replay visits stored buffers in
fetch order exactly up to the first interesting one, the Engine never
runs, and the run reports from that buffer as the falsifying record; when
no stored buffer replays as interesting, every stored buffer is replayed,
in order, and the randomized search phase runs. -/
theorem C3_database_replay (env : OrchestratorEnv) (b : Buffer)
    (hdb : env.settings.hasDatabase = true)
    (hp1 : (phase1Result env).2 = none)
    (hmax : env.settings.max_examples > 0) :
    deletedBuffers (wrappedTest env).1 =
      (replayedBuffers (wrappedTest env).1).filter
        (fun x => (env.replayStatus x).below Status.valid) ∧
    (env.storedBuffers.find?
        (fun x => decide (env.replayStatus x = Status.interesting)) = some b →
      replayedBuffers (wrappedTest env).1 =
        env.storedBuffers.takeWhile
          (fun x => !decide (env.replayStatus x = Status.interesting)) ++ [b] ∧
      Event.engineRun ∉ (wrappedTest env).1 ∧
      (wrappedTest env).2 = (finalReproduction env b).2) ∧
    (env.storedBuffers.find?
        (fun x => decide (env.replayStatus x = Status.interesting)) = none →
      replayedBuffers (wrappedTest env).1 = env.storedBuffers ∧
      Event.engineRun ∈ (wrappedTest env).1) := by
  have hdpeq : databasePhase env = databaseReplay env.replayStatus env.storedBuffers := by
    rw [databasePhase, if_pos hdb]
  rcases hpair : phase1Result env with ⟨ev1, r⟩
  have hr : r = none := by
    rw [hpair] at hp1
    simpa using hp1
  subst hr
  have hgoal : wrappedTest env = (ev1 ++ (searchAndReport env).1, (searchAndReport env).2) := by
    rw [wrappedTest, hpair]
    simp only
    rw [if_neg (by omega)]
  have hev1exp := runExplicit_explicit env.exampleOutcome (List.range env.numExamples).reverse
  have hev1exp2 : ∀ e ∈ ev1, isExplicitEvent e = true := by
    intro e he
    apply hev1exp
    have h3 : ev1 = (phase1Result env).1 := by rw [hpair]
    rw [phase1Result] at h3
    rw [← h3]
    exact he
  rcases explicit_no_buffers ev1 hev1exp2 with ⟨he1, he2, he3⟩
  rcases hfind : env.storedBuffers.find?
      (fun x => decide (env.replayStatus x = Status.interesting)) with _ | b'
  · -- no stored buffer replays as interesting: all are replayed, then the
    -- Engine runs
    rcases databaseReplay_not_found env.replayStatus env.storedBuffers hfind with
      ⟨hn1, hn2, hn3⟩
    have hdbv : (databasePhase env).2 = none := by rw [hdpeq, hn1]
    obtain ⟨rest, hsrtrace, hrrest, hdrest⟩ : ∃ rest, (searchAndReport env).1 =
        (databaseReplay env.replayStatus env.storedBuffers).1 ++
          ([Event.engineRun] ++ rest) ∧
        replayedBuffers rest = [] ∧ deletedBuffers rest = [] := by
      rw [searchAndReport]
      rcases hdpp : databasePhase env with ⟨ev2, f⟩
      have hfb : f = none := by
        rw [hdpp] at hdbv
        exact hdbv
      subst hfb
      have hev2 : ev2 = (databaseReplay env.replayStatus env.storedBuffers).1 := by
        have h5 : (databasePhase env).1 =
            (databaseReplay env.replayStatus env.storedBuffers).1 := by
          rw [hdpeq]
        rw [hdpp] at h5
        exact h5
      subst hev2
      rcases hc : classifyEngineOutcome env.settings env.engine with buf | _ | _ | _ <;>
        simp only
      · rcases reran_no_buffers (finalReproduction env buf).1 buf
          (finalReproduction_events env buf) with ⟨hh1, hh2, _⟩
        refine ⟨(if env.settings.hasDatabase then [Event.dbSaved buf] else []) ++
          (finalReproduction env buf).1, by simp [List.append_assoc], ?_, ?_⟩
        · rw [replayedBuffers_append, hh1]
          by_cases hd : env.settings.hasDatabase = true <;>
            simp [hd, replayedBuffers]
        · rw [deletedBuffers_append, hh2]
          by_cases hd : env.settings.hasDatabase = true <;>
            simp [hd, deletedBuffers]
      · exact ⟨[], by simp, rfl, rfl⟩
      · exact ⟨[], by simp, rfl, rfl⟩
      · exact ⟨[], by simp, rfl, rfl⟩
    have htrace : (wrappedTest env).1 =
        ev1 ++ ((databaseReplay env.replayStatus env.storedBuffers).1 ++
          ([Event.engineRun] ++ rest)) := by
      rw [hgoal]
      simp only
      rw [hsrtrace]
    have hrb : replayedBuffers (wrappedTest env).1 =
        replayedBuffers (databaseReplay env.replayStatus env.storedBuffers).1 := by
      rw [htrace, replayedBuffers_append, replayedBuffers_append, replayedBuffers_append,
        he1, hrrest]
      simp [replayedBuffers]
    have hdelb : deletedBuffers (wrappedTest env).1 =
        deletedBuffers (databaseReplay env.replayStatus env.storedBuffers).1 := by
      rw [htrace, deletedBuffers_append, deletedBuffers_append, deletedBuffers_append,
        he2, hdrest]
      simp [deletedBuffers]
    refine ⟨?_, ?_, ?_⟩
    · rw [hdelb, hrb, hn3]
    · intro hc
      simp at hc
    · intro _
      refine ⟨by rw [hrb, hn2], ?_⟩
      rw [htrace]
      simp
  · -- the first interesting stored buffer is the falsifying record
    rcases databaseReplay_found env.replayStatus env.storedBuffers b' hfind with
      ⟨hf1, hf2, hf3⟩
    have hsr : searchAndReport env =
        ((databaseReplay env.replayStatus env.storedBuffers).1 ++
          (finalReproduction env b').1,
         (finalReproduction env b').2) := by
      rw [searchAndReport]
      rcases hdpp : databasePhase env with ⟨ev2, f⟩
      have hfb : f = some b' := by
        have h4 : (databasePhase env).2 = some b' := by rw [hdpeq, hf1]
        rw [hdpp] at h4
        exact h4
      subst hfb
      have hev2 : ev2 = (databaseReplay env.replayStatus env.storedBuffers).1 := by
        have h5 : (databasePhase env).1 =
            (databaseReplay env.replayStatus env.storedBuffers).1 := by
          rw [hdpeq]
        rw [hdpp] at h5
        exact h5
      subst hev2
      simp only
    rcases reran_no_buffers (finalReproduction env b').1 b'
      (finalReproduction_events env b') with ⟨hp41, hp42, hp43⟩
    have htrace : (wrappedTest env).1 =
        ev1 ++ ((databaseReplay env.replayStatus env.storedBuffers).1 ++
          (finalReproduction env b').1) := by
      rw [hgoal, hsr]
    have hrb : replayedBuffers (wrappedTest env).1 =
        replayedBuffers (databaseReplay env.replayStatus env.storedBuffers).1 := by
      rw [htrace, replayedBuffers_append, replayedBuffers_append, he1, hp41]
      simp
    have hdelb : deletedBuffers (wrappedTest env).1 =
        deletedBuffers (databaseReplay env.replayStatus env.storedBuffers).1 := by
      rw [htrace, deletedBuffers_append, deletedBuffers_append, he2, hp42]
      simp
    refine ⟨?_, ?_, ?_⟩
    · rw [hdelb, hrb, hf3]
    · intro hfound
      have hbb : b' = b := by simpa using hfound
      subst hbb
      refine ⟨by rw [hrb, hf2], ?_, ?_⟩
      · rw [htrace]
        simp only [List.mem_append]
        intro hc
        rcases hc with h | h | h
        · exact he3 h
        · exact databaseReplay_no_engine env.replayStatus env.storedBuffers h
        · exact hp43 h
      · rw [hgoal, hsr]
    · intro hc
      simp at hc

/-- Claim C3 witness: at `envC3` the invalid buffer `[0]` is replayed and
deleted, the interesting buffer `[1]` becomes the falsifying record, the
valid buffer `[2]` is never replayed and the Engine never runs; at
`envC3b` no stored buffer is interesting, both buffers are replayed (the
stale one deleted) and the Engine runs. -/
theorem C3_database_replay_witness :
    (deletedBuffers (wrappedTest envC3).1 =
      (replayedBuffers (wrappedTest envC3).1).filter
        (fun x => (envC3.replayStatus x).below Status.valid) ∧
     (replayedBuffers (wrappedTest envC3).1 =
        envC3.storedBuffers.takeWhile
          (fun x => !decide (envC3.replayStatus x = Status.interesting)) ++ [[1]] ∧
      Event.engineRun ∉ (wrappedTest envC3).1 ∧
      (wrappedTest envC3).2 = (finalReproduction envC3 [1]).2)) ∧
    (deletedBuffers (wrappedTest envC3b).1 =
      (replayedBuffers (wrappedTest envC3b).1).filter
        (fun x => (envC3b.replayStatus x).below Status.valid) ∧
     (replayedBuffers (wrappedTest envC3b).1 = envC3b.storedBuffers ∧
      Event.engineRun ∈ (wrappedTest envC3b).1)) :=
  ⟨⟨(C3_database_replay envC3 [1] rfl (by decide) (by decide)).1,
    (C3_database_replay envC3 [1] rfl (by decide) (by decide)).2.1 (by decide)⟩,
   ⟨(C3_database_replay envC3b [0] rfl (by decide) (by decide)).1,
    (C3_database_replay envC3b [0] rfl (by decide) (by decide)).2.2 (by decide)⟩⟩

/-- Claim C4, counterexample: `BoundedIntStrategy(1, 0)` does fail at
construction time, but with `ValueError`, not with `InvalidArgument`. -/
theorem C4_valueerror_counterexample :
    raisesValueError (BoundedIntStrategy.init 1 0) = true ∧
    raisesInvalidArgument (BoundedIntStrategy.init 1 0) = false := by decide

/-- Claim C4, amended: constructing a bounded inclusive integer strategy
with start greater than end always fails at construction time with a
`ValueError` (not `InvalidArgument`); for every construction with
start at most end, construction succeeds and every drawn value lies in
the inclusive range. -/
theorem C4_bounded_int_range (start end' : Int) (n : Nat) :
    (start > end' →
      raisesValueError (BoundedIntStrategy.init start end') = true ∧
      raisesInvalidArgument (BoundedIntStrategy.init start end') = false) ∧
    (start ≤ end' →
      BoundedIntStrategy.init start end' = .ok (BoundedIntStrategy.mk start end') ∧
      start ≤ BoundedIntStrategy.do_draw (BoundedIntStrategy.mk start end') n ∧
      BoundedIntStrategy.do_draw (BoundedIntStrategy.mk start end') n ≤ end') := by
  constructor
  · intro hgt
    rw [BoundedIntStrategy.init, if_pos hgt]
    exact ⟨rfl, rfl⟩
  · intro hle
    refine ⟨by rw [BoundedIntStrategy.init, if_neg (not_lt.mpr hle)], ?_, ?_⟩
    · show start ≤ integer_range n start end'
      rw [integer_range]
      omega
    · show integer_range n start end' ≤ end'
      rw [integer_range]
      have hk : n % ((end' - start).toNat + 1) ≤ (end' - start).toNat :=
        Nat.lt_succ_iff.mp (Nat.mod_lt _ (Nat.succ_pos _))
      omega

/-- Claim C4 witness: construction with range `[1, 0]` raises `ValueError`,
and a draw from the range `[0, 10]` stays inside the bounds. -/
theorem C4_bounded_int_range_witness :
    (raisesValueError (BoundedIntStrategy.init 1 0) = true ∧
     raisesInvalidArgument (BoundedIntStrategy.init 1 0) = false) ∧
    (BoundedIntStrategy.init 0 10 = .ok (BoundedIntStrategy.mk 0 10) ∧
     (0 : Int) ≤ BoundedIntStrategy.do_draw (BoundedIntStrategy.mk 0 10) 23 ∧
     BoundedIntStrategy.do_draw (BoundedIntStrategy.mk 0 10) 23 ≤ 10) :=
  ⟨(C4_bounded_int_range 1 0 0).1 (by decide), (C4_bounded_int_range 0 10 23).2 (by decide)⟩

/-- Claim C5: when every explicit example passes, phase 1 runs each
declared example exactly once in reverse declaration order; the phase-1
events always open the trace, everything after them is free of
explicit-example events, and when an explicit example raises, its error
propagates as the run result after the failure message is reported, with
no database replay or search activity at all. -/
theorem C5_explicit_examples_first (env : OrchestratorEnv) :
    ((∀ i, i < env.numExamples → env.exampleOutcome i = none) →
      (phase1Result env).1 =
        (List.range env.numExamples).reverse.map Event.ranExplicitExample) ∧
    ((wrappedTest env).1.take (phase1Result env).1.length = (phase1Result env).1 ∧
     ((wrappedTest env).1.drop (phase1Result env).1.length).all
        (fun e => !isExplicitEvent e) = true) ∧
    (∀ e, (phase1Result env).2 = some e →
      (wrappedTest env).2 = RunResult.error e ∧
      (wrappedTest env).1.all (fun x => !isSearchEvent x) = true) := by
  refine ⟨?_, ?_, ?_⟩
  · intro h
    rw [phase1Result, runExplicit_all_ok env.exampleOutcome _ ?_]
    intro i hi
    exact h i (by simpa using hi)
  · have hsplit : (wrappedTest env).1 = (phase1Result env).1 ∨
        (wrappedTest env).1 = (phase1Result env).1 ++ (searchAndReport env).1 := by
      rw [wrappedTest]
      rcases hp : phase1Result env with ⟨ev1, r⟩
      rcases r with _ | e
      · simp only
        by_cases hm : env.settings.max_examples ≤ 0
        · rw [if_pos hm]; left; rfl
        · rw [if_neg hm]; right; rfl
      · simp only; left; trivial
    have hsearch : ∀ e ∈ (searchAndReport env).1, isExplicitEvent e = false := by
      intro e he
      rw [searchAndReport] at he
      rcases hdb : databasePhase env with ⟨ev2, f⟩
      rw [hdb] at he
      have hev2 : ∀ x ∈ ev2, isSearchEvent x = true := by
        intro x hx
        rw [databasePhase] at hdb
        by_cases hd : env.settings.hasDatabase = true
        · rw [if_pos hd] at hdb
          exact databaseReplay_search env.replayStatus env.storedBuffers x
            (by rw [hdb]; exact hx)
        · rw [if_neg hd] at hdb
          have : ev2 = [] := by
            have := congrArg Prod.fst hdb
            simpa using this.symm
          rw [this] at hx
          simp at hx
      have hse : ∀ x : Event, isSearchEvent x = true → isExplicitEvent x = false := by
        intro x hx
        cases x <;> simp [isSearchEvent, isExplicitEvent] at hx ⊢
      rcases f with _ | buf
      · simp only at he
        rcases hc : classifyEngineOutcome env.settings env.engine with buf | _ | _ | _ <;>
          rw [hc] at he <;> simp at he
        · rcases he with h | h | h | h
          · exact hse e (hev2 e h)
          · rw [h]; rfl
          · rw [h.2]; rfl
          · rw [finalReproduction_events env buf e h]; rfl
        all_goals (rcases he with h | h
                   · exact hse e (hev2 e h)
                   · rw [h]; rfl)
      · simp only at he
        rcases List.mem_append.mp he with h | h
        · exact hse e (hev2 e h)
        · rw [finalReproduction_events env buf e h]; rfl
    rcases hsplit with h | h
    · rw [h]
      refine ⟨List.take_length _ ▸ rfl, ?_⟩
      rw [List.drop_length]
      rfl
    · rw [h]
      constructor
      · exact List.take_left _ _
      · rw [List.drop_left]
        rw [List.all_eq_true]
        intro e he
        simp [hsearch e he]
  · intro e hp
    rw [wrappedTest]
    rcases hp1 : phase1Result env with ⟨ev1, r⟩
    rw [hp1] at hp
    simp only at hp
    subst hp
    simp only
    refine ⟨by first | rfl | trivial, ?_⟩
    rw [List.all_eq_true]
    intro x hx
    have hexp : isExplicitEvent x = true := by
      have h2 := runExplicit_explicit env.exampleOutcome (List.range env.numExamples).reverse x
      apply h2
      have h3 : ev1 = (phase1Result env).1 := by rw [hp1]
      rw [phase1Result] at h3
      rw [← h3]
      exact hx
    cases x <;> simp [isExplicitEvent] at hexp <;> rfl

/-- Claim C5 witness: at `envC5a` both examples run once in reverse order
before everything else; at `envC5b` the failing example aborts the run
with its own error and no search activity. -/
theorem C5_explicit_examples_first_witness :
    (phase1Result envC5a).1 =
      (List.range envC5a.numExamples).reverse.map Event.ranExplicitExample ∧
    ((wrappedTest envC5a).1.take (phase1Result envC5a).1.length = (phase1Result envC5a).1 ∧
     ((wrappedTest envC5a).1.drop (phase1Result envC5a).1.length).all
        (fun e => !isExplicitEvent e) = true) ∧
    ((wrappedTest envC5b).2 = RunResult.error (PyError.userError "boom") ∧
     (wrappedTest envC5b).1.all (fun x => !isSearchEvent x) = true) :=
  ⟨(C5_explicit_examples_first envC5a).1 (by decide),
   (C5_explicit_examples_first envC5a).2.1,
   (C5_explicit_examples_first envC5b).2.2 (PyError.userError "boom") (by decide)⟩

/-- Claim C6: when the randomized search completes without a falsifying
example, the run raises Timeout exactly when the valid-example count is
below the minimum of `min_satisfying_examples` and `max_examples` and the
run timed out (`timeout > 0` and elapsed at least `timeout`), raises
Unsatisfiable when the count is below that threshold without a timeout,
and returns normally otherwise. -/
theorem C6_search_outcome (env : OrchestratorEnv)
    (hp1 : (phase1Result env).2 = none)
    (hmax : env.settings.max_examples > 0)
    (hdbnone : (databasePhase env).2 = none)
    (hns : env.engine.lastStatus ≠ Status.interesting) :
    (wrappedTest env).2 =
      (if (env.engine.valid_examples : Int) <
          min env.settings.min_satisfying_examples env.settings.max_examples then
        (if timed_out env.settings env.engine.run_time = true then
          RunResult.error (PyError.timeoutError timeoutMsg)
        else RunResult.error (PyError.unsatisfiable unsatisfiableMsg))
      else RunResult.returned) ∧
    Event.engineRun ∈ (wrappedTest env).1 := by
  rcases hpair : phase1Result env with ⟨ev1, r⟩
  have hr : r = none := by
    rw [hpair] at hp1
    simpa using hp1
  subst hr
  have hgoal : wrappedTest env = (ev1 ++ (searchAndReport env).1, (searchAndReport env).2) := by
    rw [wrappedTest, hpair]
    simp only
    rw [if_neg (by omega)]
  have hsr : searchAndReport env =
      ((databasePhase env).1 ++ [Event.engineRun],
       if (env.engine.valid_examples : Int) <
          min env.settings.min_satisfying_examples env.settings.max_examples then
        (if timed_out env.settings env.engine.run_time = true then
          RunResult.error (PyError.timeoutError timeoutMsg)
        else RunResult.error (PyError.unsatisfiable unsatisfiableMsg))
      else RunResult.returned) := by
    rw [searchAndReport]
    rcases hdpp : databasePhase env with ⟨ev2, f⟩
    have hfb : f = none := by
      rw [hdpp] at hdbnone
      exact hdbnone
    subst hfb
    have hev2 : ev2 = (databasePhase env).1 := by
      rw [hdpp]
    subst hev2
    rw [classifyEngineOutcome, if_neg hns]
    by_cases hv : (env.engine.valid_examples : Int) <
        min env.settings.min_satisfying_examples env.settings.max_examples
    · rw [if_pos hv, if_pos hv]
      by_cases ht : timed_out env.settings env.engine.run_time = true
      · rw [if_pos ht, if_pos ht]
      · rw [if_neg ht, if_neg ht]
    · rw [if_neg hv, if_neg hv]
  rw [hgoal, hsr]
  refine ⟨rfl, ?_⟩
  simp

/-- Claim C6 witness, at `envC6`: zero valid examples with no timeout
configured yields the Unsatisfiable error after the Engine ran. -/
theorem C6_search_outcome_witness :
    (wrappedTest envC6).2 =
      (if (envC6.engine.valid_examples : Int) <
          min envC6.settings.min_satisfying_examples envC6.settings.max_examples then
        (if timed_out envC6.settings envC6.engine.run_time = true then
          RunResult.error (PyError.timeoutError timeoutMsg)
        else RunResult.error (PyError.unsatisfiable unsatisfiableMsg))
      else RunResult.returned) ∧
    Event.engineRun ∈ (wrappedTest envC6).1 :=
  C6_search_outcome envC6 (by decide) (by decide) (by decide) (by decide)

/-- Claim C7: across the candidate evaluations of a single run, once the
ambient-global-randomness health check has fired in some evaluation, every
later evaluation of the same run neither fires again nor snapshots nor
compares the global random state. -/
theorem C7_random_check_at_most_once (perform_health_check
    settings_perform_health_check strict : Bool) (calls : List CallBehavior)
    (i j : Nat) (hij : i < j)
    (hfired : firedIn ((runEvaluations perform_health_check
      settings_perform_health_check strict calls evalInit).1.getD i []) = true) :
    firedIn ((runEvaluations perform_health_check settings_perform_health_check
      strict calls evalInit).1.getD j []) = false ∧
    ((runEvaluations perform_health_check settings_perform_health_check
      strict calls evalInit).1.getD j []).contains EvalEvent.snapshottedRandomState = false ∧
    ((runEvaluations perform_health_check settings_perform_health_check
      strict calls evalInit).1.getD j []).contains EvalEvent.checkedRandomState = false := by
  have h := run_fired_later perform_health_check settings_perform_health_check strict
    calls evalInit i j hij hfired
  rw [h]
  exact ⟨rfl, rfl, rfl⟩

/-- Claim C7 witness, at `callsC7`: the check fires on the first
evaluation, and the second evaluation performs no snapshot or comparison
and never fires. -/
theorem C7_random_check_at_most_once_witness :
    firedIn ((runEvaluations true true false callsC7 evalInit).1.getD 1 []) = false ∧
    ((runEvaluations true true false callsC7 evalInit).1.getD 1 []).contains
      EvalEvent.snapshottedRandomState = false ∧
    ((runEvaluations true true false callsC7 evalInit).1.getD 1 []).contains
      EvalEvent.checkedRandomState = false :=
  C7_random_check_at_most_once true true false callsC7 0 1 (by decide) (by decide)

/-- Claim C8, counterexample: with `settings.strict = false`, a test call
returning a non-None value under health checking still raises
`FailedHealthCheck` (the raise at core.py line 405 bypasses
`fail_health_check`), and no warning path is taken. -/
theorem C8_strictness_counterexample :
    (evaluate_test_data true true false
      (CallBehavior.mk (.returns (some 1)) false) evalInit
      (DataState.mk Status.valid false)).raised
        = some (.failedHealthCheck nonNoneReturnMsg) ∧
    firedIn (evaluate_test_data true true false
      (CallBehavior.mk (.returns (some 1)) false) evalInit
      (DataState.mk Status.valid false)).events = false := by decide

/-- Claim C8, amended: when the test body returns a non-None value with
`settings.perform_health_check` enabled, the evaluation always raises
`FailedHealthCheck`, for both values of `settings.strict` and whatever the
ambient-randomness outcome — the strict-raise-versus-warn policy of
`fail_health_check` does not govern this escalation. -/
theorem C8_nonnone_return_always_raises (perform_health_check strict : Bool)
    (v : Nat) (randChanged : Bool) (st : EvalState) (d : DataState) :
    raisedFailedHealthCheck
      (evaluate_test_data perform_health_check true strict
        (CallBehavior.mk (.returns (some v)) randChanged) st d) = true := by
  cases hw : st.warned_random <;> cases perform_health_check <;> cases strict <;>
    cases randChanged <;>
    simp [evaluate_test_data, raisedFailedHealthCheck, hw]

/-- Claim C9: every value the exponential-shaped bounded float generator
actually returns (rather than signalling an unsatisfied assumption) lies
within the configured bounds and within their sign classes. -/
theorem C9_exponential_bounds (lower_bound upper_bound f g : ℚ)
    (h : ExponentialFloatStrategy.do_draw lower_bound upper_bound f = .ok g) :
    g = f ∧ lower_bound ≤ g ∧ g ≤ upper_bound ∧
    sign lower_bound ≤ sign g ∧ sign g ≤ sign upper_bound := by
  by_cases h1 : lower_bound ≤ f
  · by_cases h2 : f ≤ upper_bound
    · by_cases h3 : sign lower_bound ≤ sign f
      · by_cases h4 : sign f ≤ sign upper_bound
        · have hg : g = f := by
            simp [ExponentialFloatStrategy.do_draw, assume, h1, h2, h3, h4] at h
            exact h.symm
          subst hg
          exact ⟨rfl, h1, h2, h3, h4⟩
        · simp [ExponentialFloatStrategy.do_draw, assume, h1, h2, h3, h4] at h
      · simp [ExponentialFloatStrategy.do_draw, assume, h1, h2, h3] at h
    · simp [ExponentialFloatStrategy.do_draw, assume, h1, h2] at h
  · simp [ExponentialFloatStrategy.do_draw, assume, h1] at h

/-- Claim C9 witness: a draw of the value 1 with bounds `[0, 1]` is
returned and satisfies both bound and sign-class conditions. -/
theorem C9_exponential_bounds_witness :
    (1 : ℚ) = 1 ∧ (0 : ℚ) ≤ 1 ∧ (1 : ℚ) ≤ 1 ∧
    sign (0 : ℚ) ≤ sign (1 : ℚ) ∧ sign (1 : ℚ) ≤ sign (1 : ℚ) :=
  C9_exponential_bounds 0 1 1 1 rfl

/-- Claim C10: every construction of `WrapperFloatStrategy`,
`FullRangeFloats` or `BoundedFloatStrategy` raises `TypeError`, because
each constructor calls `FloatStrategy.__init__` with no arguments while it
requires the two positional arguments `allow_infinity` and `allow_nan`. -/
theorem C10_float_init_type_error (Sub : Type) (sub_strategy : Sub)
    (allow_nan allow_infinity : Bool) :
    WrapperFloatStrategy.init Sub sub_strategy = .error (.typeError
      "FloatStrategy.__init__ missing required positional arguments allow_infinity and allow_nan") ∧
    FullRangeFloats.init allow_nan allow_infinity = .error (.typeError
      "FloatStrategy.__init__ missing required positional arguments allow_infinity and allow_nan") ∧
    BoundedFloatStrategy.init = .error (.typeError
      "FloatStrategy.__init__ missing required positional arguments allow_infinity and allow_nan") :=
  ⟨rfl, rfl, rfl⟩

end Hypothesis
